import Mathlib

/-!
Verification of vibeverse.js against its specification.

The definitions below are a shallow embedding of the TypeScript sources:
JS numbers are modelled as `ℚ` (no claim here depends on floating-point
rounding), JS strings as `String` / `List Char`, `undefined`/`null` as
`Option`, and the trigonometric primitives `Math.cos`/`Math.sin`/`Math.PI`
as opaque parameters (no claim depends on trigonometric identities, only
on which expressions the code stores).  Fallible operations return
`Option`.
-/

namespace Vibeverse

/-! ## Embedding of `src/utils/url.ts` -/

/-- Embeds the semantics of JavaScript `String.prototype.split('/')` on the
character list of a string: splits at every `'/'`, keeping empty segments,
and yields `[[]]` on the empty string (JS: `''.split('/') = ['']`). -/
def splitOnSlash : List Char → List (List Char)
  | [] => [[]]
  | c :: rest =>
    if c = '/' then [] :: splitOnSlash rest
    else
      match splitOnSlash rest with
      | [] => [[c]]
      | p :: ps => (c :: p) :: ps

/-- Embeds `usernameToVibatarUrl` from `src/utils/url.ts`:
`const [name, type] = username.split('/')` binds the first two segments
(`type` is `undefined` when there is no slash, and the empty string — which
is falsy — when the second segment is empty); `if (type)` takes the
two-segment form, otherwise the whole raw username is interpolated. -/
def usernameToVibatarUrl (username : String) : String :=
  match splitOnSlash username.data with
  | name :: ty :: _ =>
    if ty ≠ [] then
      "https://vibatar.ai/" ++ String.mk name ++ "/" ++ String.mk ty ++ ".glb"
    else
      "https://vibatar.ai/" ++ username ++ ".glb"
  | _ => "https://vibatar.ai/" ++ username ++ ".glb"

/-- Model of the WHATWG `new URL(url)` constructor, restricted to what the
repository consumes (`urlObj.hostname`): accept a scheme of the form
`alpha (alphanum | '+' | '-' | '.')*` followed by `"://"`, read the
authority up to the first `'/'`, `'?'` or `'#'`, drop any userinfo
(through the last `'@'`) and any port (after the first `':'`; IPv6
bracket hosts are not modelled), lowercase the host, and fail (the JS
constructor throws) when no such scheme or no nonempty host is present. -/
def parseSchemeGo : List Char → Option (List Char)
  | [] => none
  | ':' :: '/' :: '/' :: r => some r
  | c :: r =>
    if c.isAlphanum || c = '+' || c = '-' || c = '.' then parseSchemeGo r
    else none

/-- Scheme recogniser entry point: the first character must be alphabetic. -/
def parseScheme : List Char → Option (List Char)
  | [] => none
  | c :: rest => if c.isAlpha then parseSchemeGo rest else none

/-- Authority component: characters up to the first `'/'`, `'?'` or `'#'`. -/
def takeAuthority (cs : List Char) : List Char :=
  cs.takeWhile (fun c => c ≠ '/' ∧ c ≠ '?' ∧ c ≠ '#')

/-- Drops userinfo: everything up to and including the last `'@'`. -/
def stripUserinfo (auth : List Char) : List Char :=
  (auth.reverse.takeWhile (fun c => c ≠ '@')).reverse

/-- Drops a trailing port: everything from the first `':'` on. -/
def stripPort (h : List Char) : List Char :=
  h.takeWhile (fun c => c ≠ ':')

/-- Hostname of a URL string under the model parser, `none` when the JS
`URL` constructor would throw. -/
def modelParseHostname (url : String) : Option String :=
  match parseScheme url.data with
  | none => none
  | some rest =>
    let host := stripPort (stripUserinfo (takeAuthority rest))
    if host = [] then none else some (String.mk (host.map Char.toLower))

/-- Embeds the per-domain test of `isAllowedDomain`:
`urlObj.hostname === domain || urlObj.hostname.endsWith('.' + domain)`. -/
def hostMatches (hostname domain : String) : Bool :=
  hostname == domain || ('.' :: domain.data).isSuffixOf hostname.data

/-- Embeds `isAllowedDomain` from `src/utils/url.ts`, parametric in the URL
parser (the browser's `URL` constructor is an external collaborator; the
`catch` branch corresponds to the parser returning `none`). -/
def isAllowedDomain (parseHostname : String → Option String)
    (url : String) (allowedDomains : List String) : Bool :=
  match parseHostname url with
  | some h => allowedDomains.any (fun domain => hostMatches h domain)
  | none => false

/-! ## Embedding of `src/types.ts` and `src/config.ts`

JS `undefined` is `none` at each optional field; a JS value that may also
be `null` (only `warpConfig`) is `Option (Option _)`: `none` = absent /
`undefined`, `some none` = `null`, `some (some p)` = an object.  `Math.PI`
is the opaque parameter `piQ`. -/

structure WarpConfig where
  lineCount : ℕ
  pointsPerLine : ℕ
  tunnelRadius : ℚ
  tunnelExpansion : ℚ
  minSpeed : ℚ
  speedVariation : ℚ
  oscillationSpeed : ℚ
  minSpeedFactor : ℚ
  lineLength : ℚ
  resetDistance : ℚ
  resetOffset : ℚ
  cameraSpeed : ℚ
  cameraAcceleration : ℚ
  deriving DecidableEq, Repr

/-- Embeds `DEFAULT_WARP_CONFIG` from `src/warpEffect.ts`. -/
def DEFAULT_WARP_CONFIG : WarpConfig where
  lineCount := 1000
  pointsPerLine := 8
  tunnelRadius := 2
  tunnelExpansion := 1/2
  minSpeed := 4/5
  speedVariation := 1/5
  oscillationSpeed := 2
  minSpeedFactor := 1/2
  lineLength := 3
  resetDistance := 20
  resetOffset := 20
  cameraSpeed := 2
  cameraAcceleration := 1/10

/-- Per-field-optional `PartialDeep<WarpConfig>`. -/
structure PartialWarpConfig where
  lineCount : Option ℕ := none
  pointsPerLine : Option ℕ := none
  tunnelRadius : Option ℚ := none
  tunnelExpansion : Option ℚ := none
  minSpeed : Option ℚ := none
  speedVariation : Option ℚ := none
  oscillationSpeed : Option ℚ := none
  minSpeedFactor : Option ℚ := none
  lineLength : Option ℚ := none
  resetDistance : Option ℚ := none
  resetOffset : Option ℚ := none
  cameraSpeed : Option ℚ := none
  cameraAcceleration : Option ℚ := none
  deriving DecidableEq, Repr

/-- Empty partial object `{}`. -/
def emptyPartialWarpConfig : PartialWarpConfig := {}

structure Vec3 where
  x : ℚ
  y : ℚ
  z : ℚ
  deriving DecidableEq, Repr

structure Euler where
  x : ℚ
  y : ℚ
  z : ℚ
  deriving DecidableEq, Repr

structure PartialVec3 where
  x : Option ℚ := none
  y : Option ℚ := none
  z : Option ℚ := none
  deriving DecidableEq, Repr

structure PartialEuler where
  x : Option ℚ := none
  y : Option ℚ := none
  z : Option ℚ := none
  deriving DecidableEq, Repr

/-- Resolved avatar configuration.  `types.ts` declares
`maxConcurrent : number`, but `computeVibeverseOptions` never writes that
property, so at runtime it is the absent property `undefined`; the field is
therefore modelled as `Option ℕ`. -/
structure AvatarConfig where
  useBottomOrigin : Bool
  allowedDomains : List String
  maxConcurrent : Option ℕ
  deriving DecidableEq, Repr

structure PartialAvatarConfig where
  useBottomOrigin : Option Bool := none
  allowedDomains : Option (List String) := none
  maxConcurrent : Option ℕ := none
  deriving DecidableEq, Repr

structure PortalOptions where
  label : String
  color : String
  radius : ℚ
  position : Vec3
  lookAt : Euler
  deriving DecidableEq, Repr

structure PartialPortalOptions where
  label : Option String := none
  color : Option String := none
  radius : Option ℚ := none
  position : Option PartialVec3 := none
  lookAt : Option PartialEuler := none
  deriving DecidableEq, Repr

/-- Resolved options.  The declared TS type of `warpConfig` is
`WarpConfig | null`, modelled as `Option WarpConfig`. -/
structure VibeverseOptions where
  position : Vec3
  lookAt : Euler
  username : String
  warpConfig : Option WarpConfig
  avatarConfig : AvatarConfig
  enter : PortalOptions
  exit : PortalOptions
  deriving DecidableEq, Repr

structure PartialVibeverseOptions where
  position : Option PartialVec3 := none
  lookAt : Option PartialEuler := none
  username : Option String := none
  warpConfig : Option (Option PartialWarpConfig) := none
  avatarConfig : Option PartialAvatarConfig := none
  enter : Option PartialPortalOptions := none
  exit : Option PartialPortalOptions := none
  deriving DecidableEq, Repr

/-- Embeds the portal-specific defaults of `DEFAULT_VIBEVERSE_OPTIONS`
(`src/config.ts`); position/lookAt placeholders are overwritten by the
resolver before use. -/
def DEFAULT_ENTER (piQ : ℚ) : PortalOptions where
  label := "Go back"
  color := "#ff0000"
  radius := 6
  position := ⟨0, 0, 0⟩
  lookAt := ⟨0, piQ, 0⟩

/-- Embeds the exit-portal defaults of `DEFAULT_VIBEVERSE_OPTIONS`. -/
def DEFAULT_EXIT (piQ : ℚ) : PortalOptions where
  label := "To Vibeverse"
  color := "#00ff00"
  radius := 6
  position := ⟨0, 0, 0⟩
  lookAt := ⟨0, piQ, 0⟩

/-- Embeds the root-level avatar defaults of `DEFAULT_VIBEVERSE_OPTIONS`:
`{ useBottomOrigin: false, allowedDomains: ['vibatar.ai'] }` — note the
object literal carries no `maxConcurrent` property. -/
def DEFAULT_AVATAR_CONFIG : AvatarConfig where
  useBottomOrigin := false
  allowedDomains := ["vibatar.ai"]
  maxConcurrent := none

/-- Embeds `computePortalPositions` from `src/config.ts`. -/
def computePortalPositions (rootPosition : Vec3) (enterRadius exitRadius : ℚ) :
    Vec3 × Vec3 :=
  let spacing := max enterRadius exitRadius * (5/2)
  (⟨rootPosition.x - spacing, rootPosition.y, rootPosition.z⟩,
   ⟨rootPosition.x + spacing, rootPosition.y, rootPosition.z⟩)

/-- Embeds `createVector3`: `new THREE.Vector3(v?.x ?? 0, v?.y ?? 0, v?.z ?? 0)`. -/
def createVector3 (v : Option PartialVec3) : Vec3 :=
  ⟨(v.bind (·.x)).getD 0, (v.bind (·.y)).getD 0, (v.bind (·.z)).getD 0⟩

/-- Embeds `createEuler`. -/
def createEuler (e : Option PartialEuler) : Euler :=
  ⟨(e.bind (·.x)).getD 0, (e.bind (·.y)).getD 0, (e.bind (·.z)).getD 0⟩

/-- Embeds `mergeWarpConfig`: `{ ...DEFAULT_WARP_CONFIG, ...(config ?? {}) }`.
Both `undefined` and `null` fall through `?? {}` to the empty object, so the
spread yields the full defaults; a partial object overrides field-wise. -/
def mergeWarpConfig (config : Option (Option PartialWarpConfig)) : WarpConfig :=
  let c := config.join.getD emptyPartialWarpConfig
  { lineCount := c.lineCount.getD DEFAULT_WARP_CONFIG.lineCount
    pointsPerLine := c.pointsPerLine.getD DEFAULT_WARP_CONFIG.pointsPerLine
    tunnelRadius := c.tunnelRadius.getD DEFAULT_WARP_CONFIG.tunnelRadius
    tunnelExpansion := c.tunnelExpansion.getD DEFAULT_WARP_CONFIG.tunnelExpansion
    minSpeed := c.minSpeed.getD DEFAULT_WARP_CONFIG.minSpeed
    speedVariation := c.speedVariation.getD DEFAULT_WARP_CONFIG.speedVariation
    oscillationSpeed := c.oscillationSpeed.getD DEFAULT_WARP_CONFIG.oscillationSpeed
    minSpeedFactor := c.minSpeedFactor.getD DEFAULT_WARP_CONFIG.minSpeedFactor
    lineLength := c.lineLength.getD DEFAULT_WARP_CONFIG.lineLength
    resetDistance := c.resetDistance.getD DEFAULT_WARP_CONFIG.resetDistance
    resetOffset := c.resetOffset.getD DEFAULT_WARP_CONFIG.resetOffset
    cameraSpeed := c.cameraSpeed.getD DEFAULT_WARP_CONFIG.cameraSpeed
    cameraAcceleration := c.cameraAcceleration.getD DEFAULT_WARP_CONFIG.cameraAcceleration }

/-- Embeds `computeVibeverseOptions` from `src/config.ts` (`piQ` stands for
`Math.PI`).  The `avatarConfig` record literal in the source sets only
`useBottomOrigin` and `allowedDomains`; `maxConcurrent` is left absent. -/
def computeVibeverseOptions (piQ : ℚ) (options : Option PartialVibeverseOptions) :
    VibeverseOptions :=
  let basePosition := createVector3 (options.bind (·.position))
  let baseLookAt := createEuler (options.bind (·.lookAt))
  let username := (options.bind (·.username)).getD ""
  let warpConfig := mergeWarpConfig (options.bind (·.warpConfig))
  let avatarConfig : AvatarConfig :=
    { useBottomOrigin :=
        ((options.bind (·.avatarConfig)).bind (·.useBottomOrigin)).getD
          DEFAULT_AVATAR_CONFIG.useBottomOrigin
      allowedDomains :=
        ((options.bind (·.avatarConfig)).bind (·.allowedDomains)).getD
          DEFAULT_AVATAR_CONFIG.allowedDomains
      maxConcurrent := none }
  let enterOptions : PortalOptions :=
    { DEFAULT_ENTER piQ with
      position := createVector3
        (Option.or ((options.bind (·.enter)).bind (·.position)) (options.bind (·.position)))
      lookAt := createEuler
        (Option.or ((options.bind (·.enter)).bind (·.lookAt)) (options.bind (·.lookAt)))
      label := ((options.bind (·.enter)).bind (·.label)).getD (DEFAULT_ENTER piQ).label
      color := ((options.bind (·.enter)).bind (·.color)).getD (DEFAULT_ENTER piQ).color
      radius := ((options.bind (·.enter)).bind (·.radius)).getD (DEFAULT_ENTER piQ).radius }
  let exitOptions : PortalOptions :=
    { DEFAULT_EXIT piQ with
      position := createVector3
        (Option.or ((options.bind (·.exit)).bind (·.position)) (options.bind (·.position)))
      lookAt := createEuler
        (Option.or ((options.bind (·.exit)).bind (·.lookAt)) (options.bind (·.lookAt)))
      label := ((options.bind (·.exit)).bind (·.label)).getD (DEFAULT_EXIT piQ).label
      color := ((options.bind (·.exit)).bind (·.color)).getD (DEFAULT_EXIT piQ).color
      radius := ((options.bind (·.exit)).bind (·.radius)).getD (DEFAULT_EXIT piQ).radius }
  let noExplicit : Bool :=
    ((options.bind (·.enter)).bind (·.position)).isNone &&
    ((options.bind (·.exit)).bind (·.position)).isNone
  let positions := computePortalPositions basePosition enterOptions.radius exitOptions.radius
  let enterOptions :=
    if noExplicit then { enterOptions with position := positions.1 } else enterOptions
  let exitOptions :=
    if noExplicit then { exitOptions with position := positions.2 } else exitOptions
  { position := basePosition
    lookAt := baseLookAt
    username := username
    warpConfig := some warpConfig
    avatarConfig := avatarConfig
    enter := enterOptions
    exit := exitOptions }

/-- Embeds the `enableWarpEffect` initialisation of the state built by
`vibeverse()` (`src/vibeverse.ts`):
`enableWarpEffect: computedOptions.warpConfig !== null`. -/
def vibeverseEnableWarp (piQ : ℚ) (options : Option PartialVibeverseOptions) : Bool :=
  (computeVibeverseOptions piQ options).warpConfig.isSome

/-! ## Embedding of the avatar load queue (`src/avatar.ts`)

Module state is `inFlightCount` and the pending `queue`; tasks are
identified by numbers.  Two ghost fields record the order in which tasks
arrived (`queue.push`) and were admitted (`inFlightCount++; next()`); they
have no effect on control flow.  The admission test of `processQueue` is
the JS comparison `inFlightCount < state.options.avatarConfig.maxConcurrent`;
since the resolver leaves `maxConcurrent` undefined (see `AvatarConfig`),
the comparison is modelled on `Option ℕ`: a JS `<` against `undefined` is
`NaN`-poisoned and yields `false`. -/

def jsLtUndef (a : ℕ) (b : Option ℕ) : Bool :=
  match b with
  | some m => decide (a < m)
  | none => false

structure QueueState where
  inFlightCount : ℕ
  pending : List ℕ
  admitted : List ℕ
  arrivals : List ℕ
  deriving DecidableEq, Repr

/-- Initial module state: `let inFlightCount = 0; const queue = []`. -/
def initQueueState : QueueState := ⟨0, [], [], []⟩

/-- One iteration body of the `while` loop in `processQueue`:
`const next = queue.shift(); inFlightCount++; next()`. -/
def admitOne (s : QueueState) : QueueState :=
  match s.pending with
  | [] => s
  | t :: rest =>
    { s with
      inFlightCount := s.inFlightCount + 1
      pending := rest
      admitted := s.admitted ++ [t] }

/-- Embeds the `while (inFlightCount < maxConcurrent && queue.length > 0)`
loop; each iteration removes one pending task and nothing re-enters the
queue during the loop, so `s.pending.length` iterations of fuel are
exhaustive. -/
def processQueueGo (maxConcurrent : Option ℕ) : ℕ → QueueState → QueueState
  | 0, s => s
  | fuel + 1, s =>
    if jsLtUndef s.inFlightCount maxConcurrent && !s.pending.isEmpty then
      processQueueGo maxConcurrent fuel (admitOne s)
    else s

/-- Embeds `processQueue` from `src/avatar.ts`. -/
def processQueue (maxConcurrent : Option ℕ) (s : QueueState) : QueueState :=
  processQueueGo maxConcurrent s.pending.length s

/-- Embeds the tail of `loadAndSwapAvatar`:
`queue.push(loadAvatar); processQueue(state)`. -/
def enqueueTask (maxConcurrent : Option ℕ) (s : QueueState) (t : ℕ) : QueueState :=
  processQueue maxConcurrent
    { s with pending := s.pending ++ [t], arrivals := s.arrivals ++ [t] }

/-- Embeds completion of an in-flight task:
`next().finally(() => { inFlightCount--; processQueue(state) })`. -/
def completeTask (maxConcurrent : Option ℕ) (s : QueueState) : QueueState :=
  processQueue maxConcurrent { s with inFlightCount := s.inFlightCount - 1 }

/-- Reachable queue states: enqueues and completions of in-flight tasks are
the only events that touch the queue. -/
inductive QueueReachable (maxConcurrent : Option ℕ) : QueueState → Prop
  | init : QueueReachable maxConcurrent initQueueState
  | enqueue (s : QueueState) (t : ℕ) :
      QueueReachable maxConcurrent s →
      QueueReachable maxConcurrent (enqueueTask maxConcurrent s t)
  | complete (s : QueueState) :
      QueueReachable maxConcurrent s → 0 < s.inFlightCount →
      QueueReachable maxConcurrent (completeTask maxConcurrent s)

/-! ## Embedding of the `startWarpEffect` control flow (`src/warpEffect.ts`)

Only the state fields the guard reads and the prologue writes are modelled;
the Bool returned alongside the state records whether a new animation loop
was scheduled (`requestAnimationFrame(animate)` at the end of
`startWarpEffect`). -/

structure WarpVisualState where
  visible : Bool
  opacity : ℚ
  deriving DecidableEq, Repr

structure WarpState where
  enableWarpEffect : Bool
  isWarping : Bool
  currentCameraSpeed : ℚ
  warpEffect : Option WarpVisualState
  deriving DecidableEq, Repr

/-- Embeds `startWarpEffect`:
`if (!state.enableWarpEffect || state.isWarping) return` — otherwise set
Warping, zero the accumulated camera speed, lazily create the visual
(`createWarpEffect` returns it invisible), make it visible with opacity 1,
and schedule the animation loop. -/
def startWarpEffect (s : WarpState) : WarpState × Bool :=
  if !s.enableWarpEffect || s.isWarping then (s, false)
  else
    let visual := s.warpEffect.getD ⟨false, 1⟩
    ({ s with
        isWarping := true
        currentCameraSpeed := 0
        warpEffect := some { visual with visible := true, opacity := 1 } },
     true)

/-! ## Embedding of `handleExitPortalEntry` (`src/portal.ts`)

`URLSearchParams` is modelled as an ordered list of decoded key/value
pairs: `append` is list append, `has` is key membership, and `entries`
preserves insertion order.  `toString` percent-encoding is irrelevant to
the claims and is abstracted as a `serialize` parameter. -/

/-- Embeds the query-building part of `handleExitPortalEntry`:
`portal=true`, then `username` only when `state.options.username` is truthy
(a nonempty string), then `color=white`, then each current parameter whose
key `newParams` does not already have. -/
def buildExitParams (username : String) (current : List (String × String)) :
    List (String × String) :=
  let ps : List (String × String) := [("portal", "true")]
  let ps := if username ≠ "" then ps ++ [("username", username)] else ps
  let ps := ps ++ [("color", "white")]
  current.foldl
    (fun acc kv => if acc.any (fun p => p.1 == kv.1) then acc else acc ++ [kv]) ps

/-- Embeds `nextPage`:
`'https://portal.pieter.com' + (paramString ? '?' + paramString : '')`. -/
def exitPortalNextPage (username : String) (current : List (String × String))
    (serialize : List (String × String) → String) : String :=
  let paramString := serialize (buildExitParams username current)
  "https://portal.pieter.com" ++ (if paramString ≠ "" then "?" ++ paramString else "")

/-- Specification-side description of the explicit leading parameters:
`portal=true`, the optional `username`, then `color=white`. -/
def explicitExitParams (username : String) : List (String × String) :=
  [("portal", "true")] ++
    (if username ≠ "" then [("username", username)] else []) ++
    [("color", "white")]

/-- Specification-side first-write-wins forwarding: keep each parameter
whose key has not been seen, in order, marking kept keys as seen. -/
def forwardParams (seen : List String) : List (String × String) → List (String × String)
  | [] => []
  | kv :: rest =>
    if kv.1 ∈ seen then forwardParams seen rest
    else kv :: forwardParams (kv.1 :: seen) rest

/-! ## Embedding of `createWarpEffect` buffers (`src/warpEffect.ts`)

The `Float32Array`s are modelled as flat `List ℚ`: the source writes
`positions[idx]`, `positions[idx+1]`, `positions[idx+2]` densely at
`idx = (i * pointsPerLine + j) * 3` inside `for i { for j { ... } }`
loops, so index order coincides with emission order.  `cosF`, `sinF` and
`piQ` stand for `Math.cos`, `Math.sin` and `Math.PI`; `rndV i` / `rndT i`
are the values of the two `Math.random()` calls of line `i`, each in
`[0, 1)`. -/

/-- Line angle: `const theta = (i / config.lineCount) * Math.PI * 2`. -/
def warpTheta (cfg : WarpConfig) (piQ : ℚ) (i : ℕ) : ℚ :=
  ((i : ℚ) / (cfg.lineCount : ℚ)) * piQ * 2

/-- Position entries of point `j` of line `i`:
`[cos(theta) * radius, sin(theta) * radius, z]` with
`z = j * lineLength` and `radius = tunnelRadius + j * tunnelExpansion`. -/
def warpPointTriple (cfg : WarpConfig) (cosF sinF : ℚ → ℚ) (piQ : ℚ) (i j : ℕ) :
    List ℚ :=
  let theta := warpTheta cfg piQ i
  let z := (j : ℚ) * cfg.lineLength
  let radius := cfg.tunnelRadius + (j : ℚ) * cfg.tunnelExpansion
  [cosF theta * radius, sinF theta * radius, z]

/-- The position buffer of `createWarpEffect`. -/
def warpPositions (cfg : WarpConfig) (cosF sinF : ℚ → ℚ) (piQ : ℚ) : List ℚ :=
  (List.range cfg.lineCount).flatMap fun i =>
    (List.range cfg.pointsPerLine).flatMap fun j =>
      warpPointTriple cfg cosF sinF piQ i j

/-- Color entries of point `j` (independent of the line):
`intensity = 1 - (j / (pointsPerLine - 1)) * 0.9`, channels
`[intensity, intensity, 1]`. -/
def warpColorTriple (cfg : WarpConfig) (j : ℕ) : List ℚ :=
  let intensity := 1 - ((j : ℚ) / ((cfg.pointsPerLine : ℚ) - 1)) * (9/10)
  [intensity, intensity, 1]

/-- The color buffer of `createWarpEffect`. -/
def warpColors (cfg : WarpConfig) : List ℚ :=
  (List.range cfg.lineCount).flatMap fun _ =>
    (List.range cfg.pointsPerLine).flatMap fun j => warpColorTriple cfg j

/-- The per-line velocity buffer (`Float32Array(lineCount * 3)`):
`[0, 0, minSpeed + Math.random() * speedVariation]` per line. -/
def warpVelocities (cfg : WarpConfig) (rndV : ℕ → ℚ) : List ℚ :=
  (List.range cfg.lineCount).flatMap fun i =>
    [0, 0, cfg.minSpeed + rndV i * cfg.speedVariation]

/-- The per-line timing phases: `Math.random() * Math.PI * 2`. -/
def warpTimingOffsets (cfg : WarpConfig) (rndT : ℕ → ℚ) (piQ : ℚ) : List ℚ :=
  (List.range cfg.lineCount).map fun i => rndT i * piQ * 2

/-! ## Embedding of the per-line point loop of the warp tick
(`startWarpEffect`'s `animate`, `src/warpEffect.ts`)

One tick processes each line `i` independently; for line `i` it walks the
point indices `j = 0 .. pointsPerLine-1`, advances point `j` by the line's
current velocity, and whenever the advanced depth exceeds `resetDistance`
rewrites every point of the line to the initial layout shifted by
`-resetOffset`.  Points are modelled as a total function `ℕ → WarpPoint`;
the `Option ℕ` component records the index of the last iteration whose
advanced depth exceeded `resetDistance` (`none` = the reset branch never
ran). -/

structure WarpPoint where
  x : ℚ
  y : ℚ
  z : ℚ
  deriving DecidableEq, Repr

/-- Reset layout of point `k` of line `i`:
`z = k * lineLength - resetOffset`, `radius = tunnelRadius + k * tunnelExpansion`
at the line's angle `theta` (recomputed in the tick exactly as at creation). -/
def resetPoint (cfg : WarpConfig) (cosF sinF : ℚ → ℚ) (piQ : ℚ) (i k : ℕ) : WarpPoint :=
  let theta := warpTheta cfg piQ i
  let radius := cfg.tunnelRadius + (k : ℚ) * cfg.tunnelExpansion
  ⟨cosF theta * radius, sinF theta * radius, (k : ℚ) * cfg.lineLength - cfg.resetOffset⟩

/-- Reset layout advanced once by `v` in depth (a point the loop visited
after the last reset fired). -/
def resetAdvancedPoint (cfg : WarpConfig) (cosF sinF : ℚ → ℚ) (piQ : ℚ) (v : ℚ)
    (i k : ℕ) : WarpPoint :=
  let p := resetPoint cfg cosF sinF piQ i k
  ⟨p.x, p.y, p.z + v⟩

/-- Current line velocity for one tick:
`baseVelocity * (minSpeedFactor + movementFactor * (1 - minSpeedFactor))`,
where `movementFactor = (sin(elapsed * oscillationSpeed + offset) + 1) * 0.5`
is abstracted as a parameter. -/
def currentVelocity (cfg : WarpConfig) (baseVelocity movementFactor : ℚ) : ℚ :=
  baseVelocity * (cfg.minSpeedFactor + movementFactor * (1 - cfg.minSpeedFactor))

/-- Inner point loop (`for j`) of one tick for line `i`, with `fuel`
remaining iterations starting at index `j`: advance point `j` by `v`
(`positions[posIdx + 2] += currentVelocity`), and when the advanced depth
exceeds `resetDistance`, rewrite the whole line (`for k`) to the reset
layout. -/
def lineTickFrom (cfg : WarpConfig) (cosF sinF : ℚ → ℚ) (piQ : ℚ) (i : ℕ) (v : ℚ) :
    ℕ → ℕ → (ℕ → WarpPoint) × Option ℕ → (ℕ → WarpPoint) × Option ℕ
  | 0, _, st => st
  | fuel + 1, j, (pts, last) =>
    let p := pts j
    let z' := p.z + v
    if z' > cfg.resetDistance then
      lineTickFrom cfg cosF sinF piQ i v fuel (j + 1)
        (fun k => resetPoint cfg cosF sinF piQ i k, some j)
    else
      lineTickFrom cfg cosF sinF piQ i v fuel (j + 1)
        (fun k => if k = j then ⟨p.x, p.y, z'⟩ else pts k, last)

/-- One tick of line `i`: all `pointsPerLine` iterations from index 0. -/
def lineTick (cfg : WarpConfig) (cosF sinF : ℚ → ℚ) (piQ : ℚ) (i : ℕ) (v : ℚ)
    (pts : ℕ → WarpPoint) : (ℕ → WarpPoint) × Option ℕ :=
  lineTickFrom cfg cosF sinF piQ i v cfg.pointsPerLine 0 (pts, none)

/-- Shape of the line after the iterations that follow the last reset at
index `jstar`, with `m` points already visited: points up to `jstar` sit at
the reset layout, visited points beyond it were advanced once, unvisited
points still sit at the reset layout. -/
def mixPartial (cfg : WarpConfig) (cosF sinF : ℚ → ℚ) (piQ : ℚ) (v : ℚ)
    (i jstar m : ℕ) : ℕ → WarpPoint := fun k =>
  if k ≤ jstar then resetPoint cfg cosF sinF piQ i k
  else if k < m then resetAdvancedPoint cfg cosF sinF piQ v i k
  else resetPoint cfg cosF sinF piQ i k

/-- Concrete configuration exercising the line-reset path: two points per
line, `lineLength = 3`, `resetDistance = resetOffset = 20`, and a large
but admissible per-tick velocity (`minSpeed = 21`, `speedVariation = 0`,
`minSpeedFactor = 1`, so the current velocity is exactly 21 regardless of
the oscillation phase). -/
def warpResetCexConfig : WarpConfig where
  lineCount := 1
  pointsPerLine := 2
  tunnelRadius := 2
  tunnelExpansion := 1
  minSpeed := 21
  speedVariation := 0
  oscillationSpeed := 2
  minSpeedFactor := 1
  lineLength := 3
  resetDistance := 20
  resetOffset := 20
  cameraSpeed := 2
  cameraAcceleration := 1

/-- Initial layout of line 0 of `warpResetCexConfig` when the abstract
cosine/sine parameters are the constants 1 and 0: point `k` at
`x = tunnelRadius + k * tunnelExpansion = 2 + k`, `y = 0`,
`z = k * lineLength = 3k`. -/
def warpResetCexInit : ℕ → WarpPoint := fun k => ⟨2 + (k : ℚ), 0, (k : ℚ) * 3⟩

/-! ## Theorems -/
/-- Claim C1 fails on the code: in `mergeWarpConfig` the expression
`config ?? {}` collapses an explicit `null` to the empty object, so the
resolved `warpConfig` is always a full (merged) configuration and never
`null`; consequently the initialiser
`enableWarpEffect: computedOptions.warpConfig !== null` in `vibeverse()` is
identically `true` and `warpConfig: null` does not disable the warp effect.
The `undefined`-falls-back-to-defaults and shallow-merge halves of the
claim do hold (second and fourth conjuncts). -/
theorem warpConfigNull_enablesWarp :
    (∀ (piQ : ℚ) (options : Option PartialVibeverseOptions),
      vibeverseEnableWarp piQ options = true) ∧
    mergeWarpConfig none = DEFAULT_WARP_CONFIG ∧
    mergeWarpConfig (some none) = DEFAULT_WARP_CONFIG ∧
    (∀ p : PartialWarpConfig,
      mergeWarpConfig (some (some p)) =
        { lineCount := p.lineCount.getD DEFAULT_WARP_CONFIG.lineCount
          pointsPerLine := p.pointsPerLine.getD DEFAULT_WARP_CONFIG.pointsPerLine
          tunnelRadius := p.tunnelRadius.getD DEFAULT_WARP_CONFIG.tunnelRadius
          tunnelExpansion := p.tunnelExpansion.getD DEFAULT_WARP_CONFIG.tunnelExpansion
          minSpeed := p.minSpeed.getD DEFAULT_WARP_CONFIG.minSpeed
          speedVariation := p.speedVariation.getD DEFAULT_WARP_CONFIG.speedVariation
          oscillationSpeed := p.oscillationSpeed.getD DEFAULT_WARP_CONFIG.oscillationSpeed
          minSpeedFactor := p.minSpeedFactor.getD DEFAULT_WARP_CONFIG.minSpeedFactor
          lineLength := p.lineLength.getD DEFAULT_WARP_CONFIG.lineLength
          resetDistance := p.resetDistance.getD DEFAULT_WARP_CONFIG.resetDistance
          resetOffset := p.resetOffset.getD DEFAULT_WARP_CONFIG.resetOffset
          cameraSpeed := p.cameraSpeed.getD DEFAULT_WARP_CONFIG.cameraSpeed
          cameraAcceleration := p.cameraAcceleration.getD DEFAULT_WARP_CONFIG.cameraAcceleration }) := by
  refine ⟨?_, rfl, rfl, fun p => rfl⟩
  intro piQ options
  simp [vibeverseEnableWarp, computeVibeverseOptions]

/-- Claim C2 fails on the code: the `avatarConfig` record literal built by
`computeVibeverseOptions` sets only `useBottomOrigin` and `allowedDomains`
(even a user-supplied `maxConcurrent` is dropped), so the resolved
`maxConcurrent` is the absent property `undefined`, not `5`; the admission
test `inFlightCount < maxConcurrent` then compares against `undefined`,
which is `false` in JS, so `processQueue` never admits any task. -/
theorem avatarMaxConcurrent_missing :
    (∀ (piQ : ℚ) (options : Option PartialVibeverseOptions),
      (computeVibeverseOptions piQ options).avatarConfig.maxConcurrent = none) ∧
    (∀ k : ℕ, jsLtUndef k none = false) ∧
    (∀ s : QueueState, processQueue none s = s) ∧
    (∀ (s : QueueState) (t : ℕ),
      (enqueueTask none s t).admitted = s.admitted ∧
      (enqueueTask none s t).pending = s.pending ++ [t]) := by
  have hgo : ∀ (fuel : ℕ) (s : QueueState), processQueueGo none fuel s = s := by
    intro fuel s
    cases fuel with
    | zero => rfl
    | succ n => simp [processQueueGo, jsLtUndef]
  refine ⟨?_, fun k => rfl, fun s => hgo _ _, fun s t => ?_⟩
  · intro piQ options
    simp [computeVibeverseOptions]
  · constructor <;> simp [enqueueTask, processQueue, hgo]


theorem splitOnSlash_noslash (xs : List Char) (h : '/' ∉ xs) : splitOnSlash xs = [xs] := by
  induction xs with
  | nil => rfl
  | cons c rest ih =>
    simp only [List.mem_cons, not_or] at h
    simp only [splitOnSlash, if_neg (Ne.symm h.1), ih h.2]

theorem splitOnSlash_append (xs ys : List Char) (h : '/' ∉ xs) :
    splitOnSlash (xs ++ '/' :: ys) = xs :: splitOnSlash ys := by
  induction xs with
  | nil => simp [splitOnSlash]
  | cons c rest ih =>
    simp only [List.mem_cons, not_or] at h
    simp only [List.cons_append, splitOnSlash, if_neg (Ne.symm h.1), ih h.2]
    cases hrec : splitOnSlash (rest ++ '/' :: ys) with
    | nil => rw [ih h.2] at hrec; exact absurd hrec (by simp)
    | cons p ps => rw [ih h.2] at hrec; cases hrec; rfl



/-- Claim C10, corrected: `usernameToVibatarUrl` keeps only the first two
`'/'`-separated segments when the second segment is nonempty (later
segments are dropped); when the input contains a slash but its second
segment is empty (`a/` or `a//rest`), the falsy-string check `if (type)`
fails and the whole raw input is interpolated instead; a slash-free input
`u` yields `https://vibatar.ai/u.glb`. -/
theorem usernameToVibatarUrl_segments (a b rest : String)
    (ha : '/' ∉ a.data) (hb : '/' ∉ b.data) (hbne : b ≠ "") :
    usernameToVibatarUrl a = "https://vibatar.ai/" ++ a ++ ".glb" ∧
    usernameToVibatarUrl (a ++ "/" ++ b) =
      "https://vibatar.ai/" ++ a ++ "/" ++ b ++ ".glb" ∧
    usernameToVibatarUrl (a ++ "/" ++ b ++ "/" ++ rest) =
      "https://vibatar.ai/" ++ a ++ "/" ++ b ++ ".glb" ∧
    usernameToVibatarUrl (a ++ "/") =
      "https://vibatar.ai/" ++ (a ++ "/") ++ ".glb" ∧
    usernameToVibatarUrl (a ++ "//" ++ rest) =
      "https://vibatar.ai/" ++ (a ++ "//" ++ rest) ++ ".glb" := by
  have hbd : b.data ≠ [] := fun h => hbne (String.ext h)
  refine ⟨?_, ?_, ?_, ?_, ?_⟩
  · unfold usernameToVibatarUrl
    rw [splitOnSlash_noslash _ ha]
  · have h1 : (a ++ "/" ++ b).data = a.data ++ '/' :: b.data := by
      simp [String.data_append]
    unfold usernameToVibatarUrl
    rw [h1, splitOnSlash_append _ _ ha, splitOnSlash_noslash _ hb]
    simp only [ne_eq, hbd, not_false_iff, if_true, if_pos]
  · have h1 : (a ++ "/" ++ b ++ "/" ++ rest).data =
        a.data ++ '/' :: (b.data ++ '/' :: rest.data) := by
      simp [String.data_append]
    unfold usernameToVibatarUrl
    rw [h1, splitOnSlash_append _ _ ha, splitOnSlash_append _ _ hb]
    simp only [ne_eq, hbd, not_false_iff, if_true, if_pos]
  · have h1 : (a ++ "/").data = a.data ++ '/' :: [] := by
      simp [String.data_append]
    unfold usernameToVibatarUrl
    rw [h1, splitOnSlash_append _ _ ha]
    simp [splitOnSlash]
  · have h1 : (a ++ "//" ++ rest).data = a.data ++ '/' :: ('/' :: rest.data) := by
      simp [String.data_append]
    unfold usernameToVibatarUrl
    rw [h1, splitOnSlash_append _ _ ha]
    simp [splitOnSlash]

/-- Claim C10 fails as stated: on input `a//b` (two slashes, empty second
segment) the code does not drop the later segments; it returns the whole
raw input interpolated, not `https://vibatar.ai/a/.glb`. -/
theorem usernameToVibatarUrl_counterexample :
    usernameToVibatarUrl "a//b" = "https://vibatar.ai/a//b.glb" ∧
    "https://vibatar.ai/a//b.glb" ≠ "https://vibatar.ai/a/.glb" := by decide

/-- Witness instantiating `usernameToVibatarUrl_segments` at concrete input. -/
theorem usernameToVibatarUrl_segments_witness :
    usernameToVibatarUrl ("alice" ++ "/" ++ "robot") =
      "https://vibatar.ai/" ++ "alice" ++ "/" ++ "robot" ++ ".glb" :=
  (usernameToVibatarUrl_segments "alice" "robot" "x"
    (by decide) (by decide) (by decide)).2.1


/-- Claim C9: `isAllowedDomain` never throws (it is a total function whose
`catch` branch is the `none` case of the parser); it returns `true` exactly
when the URL parses to a hostname that equals a listed domain or ends with
`'.'` followed by it, and `false` on every unparseable input; the three
concrete evaluations from the spec hold under the model URL parser. -/
theorem isAllowedDomain_spec :
    (∀ (parse : String → Option String) (url : String) (ds : List String),
      isAllowedDomain parse url ds = true ↔
        ∃ h, parse url = some h ∧ ∃ d ∈ ds, h = d ∨ ('.' :: d.data) <:+ h.data) ∧
    (∀ (parse : String → Option String) (url : String) (ds : List String),
      parse url = none → isAllowedDomain parse url ds = false) ∧
    isAllowedDomain modelParseHostname "https://evil.com/a.glb" ["vibatar.ai"] = false ∧
    isAllowedDomain modelParseHostname "https://sub.vibatar.ai/a.glb" ["vibatar.ai"] = true ∧
    ∀ ds, isAllowedDomain modelParseHostname "not a url" ds = false := by
  refine ⟨?_, ?_, by decide, by decide, ?_⟩
  · intro parse url ds
    cases hp : parse url with
    | none => simp [isAllowedDomain, hp]
    | some h =>
      simp [isAllowedDomain, hp, hostMatches, List.any_eq_true,
        List.isSuffixOf_iff_suffix, beq_iff_eq]
  · intro parse url ds hp
    simp [isAllowedDomain, hp]
  · intro ds
    have hnone : modelParseHostname "not a url" = none := by decide
    simp [isAllowedDomain, hnone]


/-- Witness instantiating `isAllowedDomain_spec` on an unparseable input. -/
theorem isAllowedDomain_spec_witness :
    isAllowedDomain (fun _ => none) "x" ["d"] = false :=
  isAllowedDomain_spec.2.1 (fun _ => none) "x" ["d"] rfl


theorem admitOne_fifo (s : QueueState) (h : s.admitted ++ s.pending = s.arrivals) :
    (admitOne s).admitted ++ (admitOne s).pending = (admitOne s).arrivals := by
  cases hp : s.pending with
  | nil => simpa [admitOne, hp] using h
  | cons t rest =>
    rw [hp] at h
    simp [admitOne, hp, ← h]

theorem processQueueGo_fifo (maxConcurrent : Option ℕ) :
    ∀ (fuel : ℕ) (s : QueueState), s.admitted ++ s.pending = s.arrivals →
      (processQueueGo maxConcurrent fuel s).admitted ++
        (processQueueGo maxConcurrent fuel s).pending =
        (processQueueGo maxConcurrent fuel s).arrivals := by
  intro fuel
  induction fuel with
  | zero => intro s h; exact h
  | succ n ih =>
    intro s h
    by_cases hc : (jsLtUndef s.inFlightCount maxConcurrent && !s.pending.isEmpty) = true
    · simp only [processQueueGo, hc, if_true]
      exact ih _ (admitOne_fifo s h)
    · simp only [processQueueGo, hc, if_false, Bool.not_eq_true] at *
      simpa [processQueueGo, hc] using h

theorem processQueueGo_le (m : ℕ) :
    ∀ (fuel : ℕ) (s : QueueState), s.inFlightCount ≤ m →
      (processQueueGo (some m) fuel s).inFlightCount ≤ m := by
  intro fuel
  induction fuel with
  | zero => intro s h; exact h
  | succ n ih =>
    intro s h
    by_cases hc : (jsLtUndef s.inFlightCount (some m) && !s.pending.isEmpty) = true
    · simp only [processQueueGo, hc, if_true]
      rw [Bool.and_eq_true] at hc
      have hlt : s.inFlightCount < m := by simpa [jsLtUndef] using hc.1
      apply ih
      cases hp : s.pending with
      | nil => simpa [admitOne, hp] using h
      | cons t rest => simp [admitOne, hp]; omega
    · simp only [Bool.not_eq_true] at hc
      simpa [processQueueGo, hc] using h

theorem processQueueGo_stop (maxConcurrent : Option ℕ) (fuel : ℕ) (s : QueueState)
    (h : (jsLtUndef s.inFlightCount maxConcurrent && !s.pending.isEmpty) = false) :
    processQueueGo maxConcurrent fuel s = s := by
  cases fuel with
  | zero => rfl
  | succ n => simp [processQueueGo, h]

theorem enqueue_at_capacity (m : ℕ) (s : QueueState) (t : ℕ)
    (h : s.inFlightCount = m) :
    (enqueueTask (some m) s t).admitted = s.admitted ∧
    (enqueueTask (some m) s t).pending = s.pending ++ [t] := by
  have hstop : ∀ fuel : ℕ, processQueueGo (some m) fuel
      { s with pending := s.pending ++ [t], arrivals := s.arrivals ++ [t] } =
      { s with pending := s.pending ++ [t], arrivals := s.arrivals ++ [t] } :=
    fun fuel => processQueueGo_stop (some m) fuel _ (by simp [jsLtUndef, h])
  constructor <;> simp [enqueueTask, processQueue, hstop]



theorem complete_admits_head (m : ℕ) (s : QueueState) (t : ℕ) (rest : List ℕ)
    (hm : 0 < m) (h : s.inFlightCount = m) (hp : s.pending = t :: rest) :
    (completeTask (some m) s).admitted = s.admitted ++ [t] ∧
    (completeTask (some m) s).pending = rest ∧
    (completeTask (some m) s).inFlightCount = m := by
  obtain ⟨fl, pend, adm, arr⟩ := s
  simp only at h hp
  subst h hp
  have h1 : fl - 1 + 1 = fl := by omega
  have hstop : ∀ fuel : ℕ,
      processQueueGo (some fl) fuel ⟨fl, rest, adm ++ [t], arr⟩ =
      ⟨fl, rest, adm ++ [t], arr⟩ :=
    fun fuel => processQueueGo_stop (some fl) fuel _ (by simp [jsLtUndef])
  have hchain : completeTask (some fl) ⟨fl, t :: rest, adm, arr⟩ =
      ⟨fl, rest, adm ++ [t], arr⟩ := by
    show processQueueGo (some fl) (rest.length + 1) ⟨fl - 1, t :: rest, adm, arr⟩ =
      ⟨fl, rest, adm ++ [t], arr⟩
    rw [processQueueGo]
    have hcond : (jsLtUndef (fl - 1) (some fl) && !((t :: rest).isEmpty : Bool)) = true := by
      simp [jsLtUndef]
      omega
    rw [if_pos hcond]
    have hone : admitOne ⟨fl - 1, t :: rest, adm, arr⟩ = ⟨fl, rest, adm ++ [t], arr⟩ := by
      simp [admitOne, h1]
    rw [hone, hstop]
  simp [hchain]

/-- Claim C3: over the queue transition system of `src/avatar.ts` (whose
only events are `enqueueTask` — `queue.push` then `processQueue` — and
`completeTask` — the `finally` of an admitted task), every reachable state
admits tasks in exact arrival order (`admitted ++ pending = arrivals`),
in-flight tasks never exceed `maxConcurrent` (and with the bound left
`undefined` nothing is ever admitted), an enqueue finding the queue at
capacity admits nothing, and a completion at capacity admits exactly the
FIFO head of the pending queue. -/
theorem avatarQueue_fifo_bounded (maxConcurrent : Option ℕ) (s : QueueState)
    (hs : QueueReachable maxConcurrent s) :
    (s.admitted ++ s.pending = s.arrivals) ∧
    (∀ m, maxConcurrent = some m → s.inFlightCount ≤ m) ∧
    (maxConcurrent = none → s.inFlightCount = 0) ∧
    (∀ m, maxConcurrent = some m → s.inFlightCount = m → ∀ t,
      (enqueueTask maxConcurrent s t).admitted = s.admitted ∧
      (enqueueTask maxConcurrent s t).pending = s.pending ++ [t]) ∧
    (∀ m, maxConcurrent = some m → 0 < m → s.inFlightCount = m →
      ∀ t rest, s.pending = t :: rest →
      (completeTask maxConcurrent s).admitted = s.admitted ++ [t] ∧
      (completeTask maxConcurrent s).pending = rest ∧
      (completeTask maxConcurrent s).inFlightCount = m) := by
  have main : (s.admitted ++ s.pending = s.arrivals) ∧
      (∀ m, maxConcurrent = some m → s.inFlightCount ≤ m) ∧
      (maxConcurrent = none → s.inFlightCount = 0) := by
    induction hs with
    | init => exact ⟨rfl, fun m _ => Nat.zero_le m, fun _ => rfl⟩
    | enqueue s t hs ih =>
      refine ⟨?_, ?_, ?_⟩
      · apply processQueueGo_fifo
        simp only [← List.append_assoc, ih.1]
      · intro m hm
        subst hm
        apply processQueueGo_le
        exact ih.2.1 m rfl
      · intro hm
        subst hm
        have hgo : ∀ (fuel : ℕ) (st : QueueState), processQueueGo none fuel st = st := by
          intro fuel st
          exact processQueueGo_stop none fuel st (by simp [jsLtUndef])
        simp [enqueueTask, processQueue, hgo]
        exact ih.2.2 rfl
    | complete s hs hpos ih =>
      refine ⟨?_, ?_, ?_⟩
      · apply processQueueGo_fifo
        exact ih.1
      · intro m hm
        subst hm
        apply processQueueGo_le
        show s.inFlightCount - 1 ≤ m
        have := ih.2.1 m rfl
        omega
      · intro hm
        exact absurd (ih.2.2 hm ▸ hpos) (by simp)
  refine ⟨main.1, main.2.1, main.2.2, ?_, ?_⟩
  · intro m hm hfull t
    subst hm
    exact enqueue_at_capacity m s t hfull
  · intro m hm hmpos hfull t rest hp
    subst hm
    exact complete_admits_head m s t rest hmpos hfull hp

/-- Witness instantiating `avatarQueue_fifo_bounded` on the reachable state
after enqueuing tasks 1, 2, 3 with capacity 2. -/
theorem avatarQueue_fifo_bounded_witness :
    QueueReachable (some 2)
      (enqueueTask (some 2) (enqueueTask (some 2) (enqueueTask (some 2) initQueueState 1) 2) 3) ∧
    ((enqueueTask (some 2) (enqueueTask (some 2) (enqueueTask (some 2) initQueueState 1) 2) 3).admitted ++
      (enqueueTask (some 2) (enqueueTask (some 2) (enqueueTask (some 2) initQueueState 1) 2) 3).pending =
      (enqueueTask (some 2) (enqueueTask (some 2) (enqueueTask (some 2) initQueueState 1) 2) 3).arrivals) :=
  ⟨QueueReachable.enqueue _ 3 (QueueReachable.enqueue _ 2 (QueueReachable.enqueue _ 1 QueueReachable.init)),
   (avatarQueue_fifo_bounded (some 2) _
     (QueueReachable.enqueue _ 3 (QueueReachable.enqueue _ 2 (QueueReachable.enqueue _ 1 QueueReachable.init)))).1⟩

/-- Claim C6: calling `startWarpEffect` while already Warping, or while the
warp effect is disabled, returns the state unchanged (no field changes, in
particular the accumulated camera speed is not reset) and schedules no
animation loop. -/
theorem startWarpEffect_noop (s : WarpState)
    (h : s.isWarping = true ∨ s.enableWarpEffect = false) :
    startWarpEffect s = (s, false) := by
  rcases h with h | h <;> simp [startWarpEffect, h]

/-- Witness instantiating `startWarpEffect_noop` on a concrete Warping
state with nonzero accumulated speed. -/
theorem startWarpEffect_noop_witness :
    ((⟨true, true, 5, none⟩ : WarpState).isWarping = true ∨
      (⟨true, true, 5, none⟩ : WarpState).enableWarpEffect = false) ∧
    startWarpEffect ⟨true, true, 5, none⟩ = (⟨true, true, 5, none⟩, false) :=
  ⟨Or.inl rfl, startWarpEffect_noop ⟨true, true, 5, none⟩ (Or.inl rfl)⟩

theorem forwardParams_seen_congr (l : List (String × String)) :
    ∀ s₁ s₂, (∀ k, k ∈ s₁ ↔ k ∈ s₂) → forwardParams s₁ l = forwardParams s₂ l := by
  induction l with
  | nil => intro s₁ s₂ _; rfl
  | cons kv rest ih =>
    intro s₁ s₂ hs
    by_cases h : kv.1 ∈ s₁
    · simp [forwardParams, h, (hs kv.1).1 h, ih s₁ s₂ hs]
    · have h₂ : kv.1 ∉ s₂ := fun hx => h ((hs kv.1).2 hx)
      simp only [forwardParams, if_neg h, if_neg h₂]
      refine congrArg _ (ih _ _ ?_)
      intro k
      simp [hs k]

theorem foldl_fww (current : List (String × String)) :
    ∀ acc : List (String × String),
      current.foldl
        (fun acc kv => if acc.any (fun p => p.1 == kv.1) then acc else acc ++ [kv]) acc =
      acc ++ forwardParams (acc.map Prod.fst) current := by
  induction current with
  | nil => intro acc; simp [forwardParams]
  | cons kv rest ih =>
    intro acc
    by_cases h : kv.1 ∈ acc.map Prod.fst
    · have hany : acc.any (fun p => p.1 == kv.1) = true := by
        rw [List.any_eq_true]
        obtain ⟨p, hp, hpk⟩ := List.mem_map.1 h
        exact ⟨p, hp, by simp [hpk]⟩
      simp only [List.foldl_cons, hany, if_true, forwardParams, if_pos h]
      exact ih acc
    · have hany : acc.any (fun p => p.1 == kv.1) = false := by
        rw [Bool.eq_false_iff, ne_eq, List.any_eq_true]
        rintro ⟨p, hp, hpk⟩
        exact h (List.mem_map.2 ⟨p, hp, by simpa using hpk⟩)
      simp only [List.foldl_cons, hany, Bool.false_eq_true, if_false, forwardParams, if_neg h]
      rw [ih (acc ++ [kv])]
      rw [forwardParams_seen_congr rest ((acc ++ [kv]).map Prod.fst) (kv.1 :: acc.map Prod.fst)
        (by intro k; simp [or_comm])]
      simp

/-- Claim C7: on exit-portal entry the destination query parameters are,
in order, `portal=true`, then `username=<configured>` exactly when a
username is configured, then `color=white`, then the current parameters
whose keys are not already present, first-write-wins (the explicit keys
shadow same-named forwarded ones); the destination URL extends the fixed
hub address `https://portal.pieter.com`. -/
theorem exitPortal_params (username : String) (current : List (String × String)) :
    buildExitParams username current =
      explicitExitParams username ++
        forwardParams ((explicitExitParams username).map Prod.fst) current ∧
    (∀ serialize, ∃ rest,
      exitPortalNextPage username current serialize =
        "https://portal.pieter.com" ++ rest) := by
  constructor
  · have hexp :
        (if username ≠ "" then
          ([("portal", "true")] : List (String × String)) ++ [("username", username)]
        else [("portal", "true")]) ++ [("color", "white")] =
        explicitExitParams username := by
      by_cases h : username = "" <;> simp [explicitExitParams, h]
    simp only [buildExitParams]
    rw [hexp, foldl_fww]
  · intro serialize
    exact ⟨_, rfl⟩

/-- Claim C8: when neither portal is given an explicit position,
`computeVibeverseOptions` places enter and exit symmetrically about the
root position along the x axis at distance
`max(enterRadius, exitRadius) * 2.5` (enter on the negative side), so
their separation is twice that; as soon as either portal supplies an
explicit position, automatic placement is skipped for both and each portal
keeps its own (or the inherited root) position. -/
theorem portalPositions_symmetric (piQ : ℚ) (options : Option PartialVibeverseOptions) :
    (((options.bind (·.enter)).bind (·.position) = none ∧
      (options.bind (·.exit)).bind (·.position) = none) →
      (computeVibeverseOptions piQ options).enter.position =
        ⟨(computeVibeverseOptions piQ options).position.x -
            max (computeVibeverseOptions piQ options).enter.radius
              (computeVibeverseOptions piQ options).exit.radius * (5/2),
          (computeVibeverseOptions piQ options).position.y,
          (computeVibeverseOptions piQ options).position.z⟩ ∧
      (computeVibeverseOptions piQ options).exit.position =
        ⟨(computeVibeverseOptions piQ options).position.x +
            max (computeVibeverseOptions piQ options).enter.radius
              (computeVibeverseOptions piQ options).exit.radius * (5/2),
          (computeVibeverseOptions piQ options).position.y,
          (computeVibeverseOptions piQ options).position.z⟩ ∧
      (computeVibeverseOptions piQ options).exit.position.x -
          (computeVibeverseOptions piQ options).enter.position.x =
        2 * (max (computeVibeverseOptions piQ options).enter.radius
              (computeVibeverseOptions piQ options).exit.radius * (5/2))) ∧
    (¬((options.bind (·.enter)).bind (·.position) = none ∧
       (options.bind (·.exit)).bind (·.position) = none) →
      (computeVibeverseOptions piQ options).enter.position =
        createVector3 (Option.or ((options.bind (·.enter)).bind (·.position))
          (options.bind (·.position))) ∧
      (computeVibeverseOptions piQ options).exit.position =
        createVector3 (Option.or ((options.bind (·.exit)).bind (·.position))
          (options.bind (·.position)))) := by
  constructor
  · rintro ⟨hE, hX⟩
    refine ⟨?_, ?_, ?_⟩ <;>
      simp [computeVibeverseOptions, computePortalPositions, hE, hX] <;> ring
  · intro h
    have hb : (((options.bind (·.enter)).bind (·.position)).isNone &&
        ((options.bind (·.exit)).bind (·.position)).isNone) = false := by
      rcases Option.eq_none_or_eq_some ((options.bind (·.enter)).bind (·.position)) with hE | ⟨v, hE⟩
      · rcases Option.eq_none_or_eq_some ((options.bind (·.exit)).bind (·.position)) with hX | ⟨w, hX⟩
        · exact absurd ⟨hE, hX⟩ h
        · simp [hE, hX]
      · simp [hE]
    constructor <;> simp [computeVibeverseOptions, hb]

/-- Witness instantiating `portalPositions_symmetric` with no options at
all: both portals are auto-placed symmetrically. -/
theorem portalPositions_symmetric_witness :
    ((Option.bind (Option.bind (none : Option PartialVibeverseOptions) (·.enter)) (·.position) = none ∧
      Option.bind (Option.bind (none : Option PartialVibeverseOptions) (·.exit)) (·.position) = none) ∧
     (computeVibeverseOptions 3 none).exit.position.x -
        (computeVibeverseOptions 3 none).enter.position.x =
      2 * (max (computeVibeverseOptions 3 none).enter.radius
            (computeVibeverseOptions 3 none).exit.radius * (5/2))) :=
  ⟨⟨rfl, rfl⟩, ((portalPositions_symmetric 3 none).1 ⟨rfl, rfl⟩).2.2⟩


theorem lineTickFrom_succ (cfg : WarpConfig) (cosF sinF : ℚ → ℚ) (piQ : ℚ)
    (i : ℕ) (v : ℚ) (fuel j : ℕ) (pts : ℕ → WarpPoint) (last : Option ℕ) :
    lineTickFrom cfg cosF sinF piQ i v (fuel + 1) j (pts, last) =
      if (pts j).z + v > cfg.resetDistance then
        lineTickFrom cfg cosF sinF piQ i v fuel (j + 1)
          (fun k => resetPoint cfg cosF sinF piQ i k, some j)
      else
        lineTickFrom cfg cosF sinF piQ i v fuel (j + 1)
          (fun k => if k = j then ⟨(pts j).x, (pts j).y, (pts j).z + v⟩ else pts k,
            last) := rfl

theorem lineTickFrom_after_reset (cfg : WarpConfig) (cosF sinF : ℚ → ℚ) (piQ : ℚ)
    (i : ℕ) (v : ℚ) :
    ∀ (fuel j jstar : ℕ), jstar < j →
      ∃ jf, jstar ≤ jf ∧ (jf = jstar ∨ jf < j + fuel) ∧
        lineTickFrom cfg cosF sinF piQ i v fuel j
          (mixPartial cfg cosF sinF piQ v i jstar j, some jstar) =
          (mixPartial cfg cosF sinF piQ v i jf (j + fuel), some jf) := by
  intro fuel
  induction fuel with
  | zero =>
    intro j jstar h
    exact ⟨jstar, le_refl _, Or.inl rfl, rfl⟩
  | succ fuel ih =>
    intro j jstar h
    have hpj : mixPartial cfg cosF sinF piQ v i jstar j j =
        resetPoint cfg cosF sinF piQ i j := by
      simp only [mixPartial, if_neg (by omega : ¬ j ≤ jstar), if_neg (by omega : ¬ j < j)]
    by_cases hz : (resetPoint cfg cosF sinF piQ i j).z + v > cfg.resetDistance
    · have hz' : (mixPartial cfg cosF sinF piQ v i jstar j j).z + v > cfg.resetDistance := by
        rw [hpj]; exact hz
      have hwipe : (fun k => resetPoint cfg cosF sinF piQ i k) =
          mixPartial cfg cosF sinF piQ v i j (j + 1) := by
        funext k
        simp only [mixPartial]
        split_ifs with h1 h2 <;> first | rfl | omega
      obtain ⟨jf, h1, h2, h3⟩ := ih (j + 1) j (by omega)
      refine ⟨jf, by omega, Or.inr (by rcases h2 with rfl | h2 <;> omega), ?_⟩
      have harith : j + 1 + fuel = j + (fuel + 1) := by omega
      rw [harith] at h3
      rw [lineTickFrom_succ, if_pos hz', hwipe]
      exact h3
    · have hz' : ¬ ((mixPartial cfg cosF sinF piQ v i jstar j j).z + v > cfg.resetDistance) := by
        rw [hpj]; exact hz
      have hupd : (fun k =>
          if k = j then
            (⟨(mixPartial cfg cosF sinF piQ v i jstar j j).x,
              (mixPartial cfg cosF sinF piQ v i jstar j j).y,
              (mixPartial cfg cosF sinF piQ v i jstar j j).z + v⟩ : WarpPoint)
          else mixPartial cfg cosF sinF piQ v i jstar j k) =
          mixPartial cfg cosF sinF piQ v i jstar (j + 1) := by
        funext k
        by_cases hk : k = j
        · subst hk
          rw [hpj]
          simp only [if_pos rfl, mixPartial, if_neg (by omega : ¬ k ≤ jstar),
            if_pos (by omega : k < k + 1)]
          rfl
        · simp only [if_neg hk, mixPartial]
          split_ifs <;> first | rfl | omega
      obtain ⟨jf, h1, h2, h3⟩ := ih (j + 1) jstar (by omega)
      have hb : jf = jstar ∨ jf < j + (fuel + 1) := by
        rcases h2 with rfl | h2
        · exact Or.inl rfl
        · exact Or.inr (by omega)
      refine ⟨jf, by omega, hb, ?_⟩
      have harith : j + 1 + fuel = j + (fuel + 1) := by omega
      rw [harith] at h3
      rw [lineTickFrom_succ, if_neg hz', hupd]
      exact h3


theorem resetAll_eq_mixPartial (cfg : WarpConfig) (cosF sinF : ℚ → ℚ) (piQ v : ℚ)
    (i j : ℕ) :
    (fun k => resetPoint cfg cosF sinF piQ i k) =
      mixPartial cfg cosF sinF piQ v i j (j + 1) := by
  funext k
  simp only [mixPartial]
  split_ifs with h1 h2 <;> first | rfl | omega

theorem lineTickFrom_from_none (cfg : WarpConfig) (cosF sinF : ℚ → ℚ) (piQ : ℚ)
    (i : ℕ) (v : ℚ) :
    ∀ (fuel j : ℕ) (pts : ℕ → WarpPoint),
      (lineTickFrom cfg cosF sinF piQ i v fuel j (pts, none)).2 = none ∨
      ∃ jf, j ≤ jf ∧ jf < j + fuel ∧
        lineTickFrom cfg cosF sinF piQ i v fuel j (pts, none) =
          (mixPartial cfg cosF sinF piQ v i jf (j + fuel), some jf) := by
  intro fuel
  induction fuel with
  | zero => intro j pts; left; rfl
  | succ fuel ih =>
    intro j pts
    by_cases hz : (pts j).z + v > cfg.resetDistance
    · right
      obtain ⟨jf, h1, h2, h3⟩ :=
        lineTickFrom_after_reset cfg cosF sinF piQ i v fuel (j + 1) j (by omega)
      refine ⟨jf, by omega, by rcases h2 with rfl | h2 <;> omega, ?_⟩
      have harith : j + 1 + fuel = j + (fuel + 1) := by omega
      rw [harith] at h3
      rw [lineTickFrom_succ, if_pos hz, resetAll_eq_mixPartial cfg cosF sinF piQ v i j]
      exact h3
    · rcases ih (j + 1)
        (fun k => if k = j then ⟨(pts j).x, (pts j).y, (pts j).z + v⟩ else pts k) with
        hnone | ⟨jf, h1, h2, h3⟩
      · left
        rw [lineTickFrom_succ, if_neg hz]
        exact hnone
      · right
        refine ⟨jf, by omega, by omega, ?_⟩
        have harith : j + 1 + fuel = j + (fuel + 1) := by omega
        rw [harith] at h3
        rw [lineTickFrom_succ, if_neg hz]
        exact h3

/-- Claim C4, corrected: during one warp tick, if the advanced depth of
some point of a line exceeds `resetDistance` (the recorded last such index
is `jstar`), then when the tick completes every point `k ≤ jstar` sits
exactly at the reset layout — depth `k * lineLength - resetOffset` and
radius `tunnelRadius + k * tunnelExpansion` at the line's angle — while
every later point `k > jstar` sits at the reset layout advanced once more
by the line's current velocity (the loop keeps advancing the remaining
points after rewriting the line).  The whole line equals the shifted
initial layout only when `jstar` is the last point index. -/
theorem warpLineReset (cfg : WarpConfig) (cosF sinF : ℚ → ℚ) (piQ base mf : ℚ)
    (pts : ℕ → WarpPoint) (i jstar : ℕ)
    (h : (lineTick cfg cosF sinF piQ i (currentVelocity cfg base mf) pts).2 = some jstar) :
    jstar < cfg.pointsPerLine ∧
    ∀ k, k < cfg.pointsPerLine →
      (lineTick cfg cosF sinF piQ i (currentVelocity cfg base mf) pts).1 k =
        (if k ≤ jstar then resetPoint cfg cosF sinF piQ i k
         else resetAdvancedPoint cfg cosF sinF piQ (currentVelocity cfg base mf) i k) := by
  rcases lineTickFrom_from_none cfg cosF sinF piQ i (currentVelocity cfg base mf)
      cfg.pointsPerLine 0 pts with hnone | ⟨jf, h1, h2, h3⟩
  · rw [lineTick] at h
    rw [hnone] at h
    exact absurd h (by simp)
  · rw [lineTick] at h ⊢
    rw [h3] at h ⊢
    have hj : jstar = jf := (Option.some.inj h).symm
    subst hj
    refine ⟨by omega, ?_⟩
    intro k hk
    simp only [mixPartial, Nat.zero_add]
    by_cases hks : k ≤ jstar
    · simp [hks]
    · simp [hks, hk]

/-- Claim C4 fails as stated: in the run below, point 0's advanced depth
21 exceeds `resetDistance = 20` during the tick (the recorded reset index
is 0), yet at tick completion point 1 sits at depth `4`, not at
`1 * lineLength - resetOffset = -17`: the loop advanced point 1 again
after the line had been rewritten. -/
theorem warpLineReset_counterexample :
    (lineTick warpResetCexConfig (fun _ => 1) (fun _ => 0) 3 0
        (currentVelocity warpResetCexConfig 21 0) warpResetCexInit).2 = some 0 ∧
    ((lineTick warpResetCexConfig (fun _ => 1) (fun _ => 0) 3 0
        (currentVelocity warpResetCexConfig 21 0) warpResetCexInit).1 1).z = 4 ∧
    (1 : ℚ) * warpResetCexConfig.lineLength - warpResetCexConfig.resetOffset ≠ 4 := by
  have hveq : currentVelocity warpResetCexConfig 21 0 = 21 := by
    norm_num [currentVelocity, warpResetCexConfig]
  have hc1 : (warpResetCexInit 0).z + currentVelocity warpResetCexConfig 21 0 >
      warpResetCexConfig.resetDistance := by
    rw [hveq]; norm_num [warpResetCexInit, warpResetCexConfig]
  have hc2 : ¬ ((resetPoint warpResetCexConfig (fun _ => 1) (fun _ => 0) 3 0 1).z +
      currentVelocity warpResetCexConfig 21 0 > warpResetCexConfig.resetDistance) := by
    rw [hveq]; norm_num [resetPoint, warpResetCexConfig]
  have e2 : lineTickFrom warpResetCexConfig (fun _ => 1) (fun _ => 0) 3 0
      (currentVelocity warpResetCexConfig 21 0) (1 + 1) 0 (warpResetCexInit, none) =
      lineTickFrom warpResetCexConfig (fun _ => 1) (fun _ => 0) 3 0
        (currentVelocity warpResetCexConfig 21 0) 1 1
        (fun k => resetPoint warpResetCexConfig (fun _ => 1) (fun _ => 0) 3 0 k, some 0) := by
    rw [lineTickFrom_succ, if_pos hc1]
  have e3 : lineTickFrom warpResetCexConfig (fun _ => 1) (fun _ => 0) 3 0
      (currentVelocity warpResetCexConfig 21 0) (0 + 1) 1
      (fun k => resetPoint warpResetCexConfig (fun _ => 1) (fun _ => 0) 3 0 k, some 0) =
      ((fun k => if k = 1 then
          ⟨(resetPoint warpResetCexConfig (fun _ => 1) (fun _ => 0) 3 0 1).x,
           (resetPoint warpResetCexConfig (fun _ => 1) (fun _ => 0) 3 0 1).y,
           (resetPoint warpResetCexConfig (fun _ => 1) (fun _ => 0) 3 0 1).z +
             currentVelocity warpResetCexConfig 21 0⟩
        else resetPoint warpResetCexConfig (fun _ => 1) (fun _ => 0) 3 0 k), some 0) := by
    rw [lineTickFrom_succ, if_neg hc2]
    rfl
  have etot : lineTick warpResetCexConfig (fun _ => 1) (fun _ => 0) 3 0
      (currentVelocity warpResetCexConfig 21 0) warpResetCexInit =
      ((fun k => if k = 1 then
          ⟨(resetPoint warpResetCexConfig (fun _ => 1) (fun _ => 0) 3 0 1).x,
           (resetPoint warpResetCexConfig (fun _ => 1) (fun _ => 0) 3 0 1).y,
           (resetPoint warpResetCexConfig (fun _ => 1) (fun _ => 0) 3 0 1).z +
             currentVelocity warpResetCexConfig 21 0⟩
        else resetPoint warpResetCexConfig (fun _ => 1) (fun _ => 0) 3 0 k), some 0) :=
    e2.trans e3
  refine ⟨?_, ?_, ?_⟩
  · rw [etot]
  · rw [etot]
    simp only [if_pos rfl]
    rw [hveq]
    norm_num [resetPoint, warpResetCexConfig]
  · norm_num [warpResetCexConfig]

/-- Witness instantiating `warpLineReset` on the concrete run of
`warpLineReset_counterexample`'s configuration. -/
theorem warpLineReset_witness :
    (lineTick warpResetCexConfig (fun _ => 1) (fun _ => 0) 3 0
        (currentVelocity warpResetCexConfig 21 0) warpResetCexInit).2 = some 0 ∧
    (∀ k, k < warpResetCexConfig.pointsPerLine →
      (lineTick warpResetCexConfig (fun _ => 1) (fun _ => 0) 3 0
          (currentVelocity warpResetCexConfig 21 0) warpResetCexInit).1 k =
        (if k ≤ 0 then resetPoint warpResetCexConfig (fun _ => 1) (fun _ => 0) 3 0 k
         else resetAdvancedPoint warpResetCexConfig (fun _ => 1) (fun _ => 0) 3
           (currentVelocity warpResetCexConfig 21 0) 0 k)) := by
  have hc1 : (warpResetCexInit 0).z + currentVelocity warpResetCexConfig 21 0 >
      warpResetCexConfig.resetDistance := by
    norm_num [currentVelocity, warpResetCexInit, warpResetCexConfig]
  have hc2 : ¬ ((resetPoint warpResetCexConfig (fun _ => 1) (fun _ => 0) 3 0 1).z +
      currentVelocity warpResetCexConfig 21 0 > warpResetCexConfig.resetDistance) := by
    norm_num [currentVelocity, resetPoint, warpResetCexConfig]
  have h : (lineTick warpResetCexConfig (fun _ => 1) (fun _ => 0) 3 0
      (currentVelocity warpResetCexConfig 21 0) warpResetCexInit).2 = some 0 := by
    have e2 : lineTickFrom warpResetCexConfig (fun _ => 1) (fun _ => 0) 3 0
        (currentVelocity warpResetCexConfig 21 0) (1 + 1) 0 (warpResetCexInit, none) =
        lineTickFrom warpResetCexConfig (fun _ => 1) (fun _ => 0) 3 0
          (currentVelocity warpResetCexConfig 21 0) 1 1
          (fun k => resetPoint warpResetCexConfig (fun _ => 1) (fun _ => 0) 3 0 k, some 0) := by
      rw [lineTickFrom_succ, if_pos hc1]
    have e3 : lineTickFrom warpResetCexConfig (fun _ => 1) (fun _ => 0) 3 0
        (currentVelocity warpResetCexConfig 21 0) (0 + 1) 1
        (fun k => resetPoint warpResetCexConfig (fun _ => 1) (fun _ => 0) 3 0 k, some 0) =
        ((fun k => if k = 1 then
            ⟨(resetPoint warpResetCexConfig (fun _ => 1) (fun _ => 0) 3 0 1).x,
             (resetPoint warpResetCexConfig (fun _ => 1) (fun _ => 0) 3 0 1).y,
             (resetPoint warpResetCexConfig (fun _ => 1) (fun _ => 0) 3 0 1).z +
               currentVelocity warpResetCexConfig 21 0⟩
          else resetPoint warpResetCexConfig (fun _ => 1) (fun _ => 0) 3 0 k), some 0) := by
      rw [lineTickFrom_succ, if_neg hc2]
      rfl
    exact congrArg Prod.snd (e2.trans e3)
  exact ⟨h, (warpLineReset warpResetCexConfig (fun _ => 1) (fun _ => 0) 3 21 0
    warpResetCexInit 0 0 h).2⟩


theorem flatMap_uniform_length {α β : Type} (f : α → List β) (m : ℕ)
    (hf : ∀ a, (f a).length = m) :
    ∀ l : List α, (l.flatMap f).length = l.length * m := by
  intro l
  induction l with
  | nil => simp
  | cons a t ih =>
    simp only [List.flatMap_cons, List.length_append, hf, ih, List.length_cons,
      Nat.succ_mul]
    omega

theorem flatMap_uniform_getElem {α β : Type} (f : α → List β) (m : ℕ)
    (hf : ∀ a, (f a).length = m) :
    ∀ (l : List α) (i r : ℕ) (hi : i < l.length), r < m →
      (l.flatMap f)[i * m + r]? = (f (l.get ⟨i, hi⟩))[r]? := by
  intro l
  induction l with
  | nil => intro i r hi _; exact absurd hi (by simp)
  | cons a t ih =>
    intro i r hi hr
    cases i with
    | zero =>
      simp only [List.flatMap_cons, Nat.zero_mul, Nat.zero_add]
      rw [List.getElem?_append_left (by rw [hf]; exact hr)]
      rfl
    | succ n =>
      simp only [List.flatMap_cons]
      rw [List.getElem?_append_right (by rw [hf, Nat.succ_mul]; omega)]
      have hidx : (n + 1) * m + r - (f a).length = n * m + r := by
        rw [hf, Nat.succ_mul]; omega
      rw [hidx]
      exact ih n r (by simpa using hi) hr

theorem range_flatMap_getElem {β : Type} (g : ℕ → ℕ → List β) (n p m : ℕ)
    (hg : ∀ i j, (g i j).length = m)
    (i j r : ℕ) (hi : i < n) (hj : j < p) (hr : r < m) :
    ((List.range n).flatMap fun a => (List.range p).flatMap fun b => g a b)[
      (i * p + j) * m + r]? = (g i j)[r]? := by
  have hlen : ∀ a, ((List.range p).flatMap fun b => g a b).length = p * m := by
    intro a
    rw [flatMap_uniform_length (fun b => g a b) m (fun b => hg a b)]
    simp
  have hidx : (i * p + j) * m + r = i * (p * m) + (j * m + r) := by ring
  have hjm : j * m + r < p * m := by
    calc j * m + r < j * m + m := by omega
    _ = (j + 1) * m := by ring
    _ ≤ p * m := Nat.mul_le_mul_right m (by omega)
  rw [hidx, flatMap_uniform_getElem _ (p * m) hlen (List.range n) i (j * m + r)
    (by simpa using hi) hjm]
  have hgi : (List.range n).get ⟨i, by simpa using hi⟩ = i := by simp
  rw [hgi, flatMap_uniform_getElem (fun b => g i b) m (fun b => hg i b)
    (List.range p) j r (by simpa using hj) hr]
  have hgj : (List.range p).get ⟨j, by simpa using hj⟩ = j := by simp
  rw [hgj]


/-- Claim C5: for every `WarpConfig` with `pointsPerLine ≥ 2` (and the
implicit sanity constraints `speedVariation ≥ 0` and a positive `Math.PI`
stand-in), `createWarpEffect` emits exactly `lineCount * pointsPerLine`
position and color entries (3 floats each) and exactly `lineCount`
per-line velocities (3 floats each) and timing phases; point `j` of line
`i` sits at angle `theta i = 2π i / lineCount`, radius
`tunnelRadius + j * tunnelExpansion`, depth `j * lineLength`; its red and
green channels are `1 - (j / (pointsPerLine - 1)) * 0.9` (1 at `j = 0`
down to `0.1` at the far end) with blue pinned to 1; every per-line
z-velocity lies in `[minSpeed, minSpeed + speedVariation]` and every phase
in `[0, 2π)`. -/
theorem createWarpEffect_layout (cfg : WarpConfig) (cosF sinF : ℚ → ℚ) (piQ : ℚ)
    (rndV rndT : ℕ → ℚ)
    (hppl : 2 ≤ cfg.pointsPerLine)
    (hsv : 0 ≤ cfg.speedVariation)
    (hpi : 0 < piQ)
    (hrV : ∀ n, 0 ≤ rndV n ∧ rndV n < 1)
    (hrT : ∀ n, 0 ≤ rndT n ∧ rndT n < 1) :
    (warpPositions cfg cosF sinF piQ).length = cfg.lineCount * cfg.pointsPerLine * 3 ∧
    (warpColors cfg).length = cfg.lineCount * cfg.pointsPerLine * 3 ∧
    (warpVelocities cfg rndV).length = cfg.lineCount * 3 ∧
    (warpTimingOffsets cfg rndT piQ).length = cfg.lineCount ∧
    (∀ i j, i < cfg.lineCount → j < cfg.pointsPerLine →
      (warpPositions cfg cosF sinF piQ)[(i * cfg.pointsPerLine + j) * 3]? =
        some (cosF (warpTheta cfg piQ i) *
          (cfg.tunnelRadius + (j : ℚ) * cfg.tunnelExpansion)) ∧
      (warpPositions cfg cosF sinF piQ)[(i * cfg.pointsPerLine + j) * 3 + 1]? =
        some (sinF (warpTheta cfg piQ i) *
          (cfg.tunnelRadius + (j : ℚ) * cfg.tunnelExpansion)) ∧
      (warpPositions cfg cosF sinF piQ)[(i * cfg.pointsPerLine + j) * 3 + 2]? =
        some ((j : ℚ) * cfg.lineLength)) ∧
    (∀ i j, i < cfg.lineCount → j < cfg.pointsPerLine →
      (warpColors cfg)[(i * cfg.pointsPerLine + j) * 3]? =
        some (1 - ((j : ℚ) / ((cfg.pointsPerLine : ℚ) - 1)) * (9/10)) ∧
      (warpColors cfg)[(i * cfg.pointsPerLine + j) * 3 + 1]? =
        some (1 - ((j : ℚ) / ((cfg.pointsPerLine : ℚ) - 1)) * (9/10)) ∧
      (warpColors cfg)[(i * cfg.pointsPerLine + j) * 3 + 2]? = some 1) ∧
    (1 - ((0 : ℚ) / ((cfg.pointsPerLine : ℚ) - 1)) * (9/10) = 1 ∧
      1 - (((cfg.pointsPerLine - 1 : ℕ) : ℚ) / ((cfg.pointsPerLine : ℚ) - 1)) * (9/10)
        = 1/10) ∧
    (∀ i, i < cfg.lineCount →
      (warpVelocities cfg rndV)[i * 3 + 2]? =
        some (cfg.minSpeed + rndV i * cfg.speedVariation) ∧
      cfg.minSpeed ≤ cfg.minSpeed + rndV i * cfg.speedVariation ∧
      cfg.minSpeed + rndV i * cfg.speedVariation ≤ cfg.minSpeed + cfg.speedVariation) ∧
    (∀ i, i < cfg.lineCount →
      (warpTimingOffsets cfg rndT piQ)[i]? = some (rndT i * piQ * 2) ∧
      0 ≤ rndT i * piQ * 2 ∧ rndT i * piQ * 2 < piQ * 2) := by
  have htriple : ∀ i j, (warpPointTriple cfg cosF sinF piQ i j).length = 3 :=
    fun i j => rfl
  have hctriple : ∀ (i j : ℕ), (warpColorTriple cfg j).length = 3 := fun i j => rfl
  have hvel : ∀ i : ℕ, ([0, 0, cfg.minSpeed + rndV i * cfg.speedVariation] : List ℚ).length = 3 :=
    fun i => rfl
  refine ⟨?_, ?_, ?_, ?_, ?_, ?_, ⟨?_, ?_⟩, ?_, ?_⟩
  · rw [warpPositions,
      flatMap_uniform_length _ (cfg.pointsPerLine * 3)
        (fun i => by
          rw [flatMap_uniform_length _ 3 (htriple i)]
          simp)]
    simp [Nat.mul_assoc]
  · rw [warpColors,
      flatMap_uniform_length _ (cfg.pointsPerLine * 3)
        (fun i => by
          rw [flatMap_uniform_length _ 3 (hctriple i)]
          simp)]
    simp [Nat.mul_assoc]
  · rw [warpVelocities, flatMap_uniform_length _ 3 hvel]
    simp
  · rw [warpTimingOffsets]
    simp
  · intro i j hi hj
    refine ⟨?_, ?_, ?_⟩
    · have h := range_flatMap_getElem _ _ _ _ htriple i j 0 hi hj (by omega)
      rw [warpPositions]
      simpa [warpPointTriple] using h
    · rw [warpPositions, range_flatMap_getElem _ _ _ _ htriple i j 1 hi hj (by omega)]
      rfl
    · rw [warpPositions, range_flatMap_getElem _ _ _ _ htriple i j 2 hi hj (by omega)]
      rfl
  · intro i j hi hj
    refine ⟨?_, ?_, ?_⟩
    · have h := range_flatMap_getElem _ _ _ _ hctriple i j 0 hi hj (by omega)
      rw [warpColors]
      simpa [warpColorTriple] using h
    · rw [warpColors, range_flatMap_getElem _ _ _ _ hctriple i j 1 hi hj (by omega)]
      rfl
    · rw [warpColors, range_flatMap_getElem _ _ _ _ hctriple i j 2 hi hj (by omega)]
      rfl
  · simp
  · have hcast : ((cfg.pointsPerLine - 1 : ℕ) : ℚ) = (cfg.pointsPerLine : ℚ) - 1 := by
      push_cast [Nat.cast_sub (by omega : 1 ≤ cfg.pointsPerLine)]
      ring
    have hne : (cfg.pointsPerLine : ℚ) - 1 ≠ 0 := by
      have h2 : (2 : ℚ) ≤ (cfg.pointsPerLine : ℚ) := by exact_mod_cast hppl
      linarith
    rw [hcast, div_self hne]
    norm_num
  · intro i hi
    have hrnd := hrV i
    refine ⟨?_, ?_, ?_⟩
    · rw [warpVelocities, flatMap_uniform_getElem _ 3 hvel (List.range cfg.lineCount)
        i 2 (by simpa using hi) (by omega)]
      have : (List.range cfg.lineCount).get ⟨i, by simpa using hi⟩ = i := by simp
      rw [this]
      rfl
    · nlinarith [hrnd.1, hrnd.2]
    · nlinarith [hrnd.1, hrnd.2]
  · intro i hi
    have hrnd := hrT i
    refine ⟨?_, ?_, ?_⟩
    · rw [warpTimingOffsets]
      simp [List.getElem?_map, List.getElem?_range, hi]
    · nlinarith [hrnd.1, hrnd.2]
    · nlinarith [hrnd.1, hrnd.2]

/-- Witness instantiating `createWarpEffect_layout` at the default
configuration with zero random streams. -/
theorem createWarpEffect_layout_witness :
    (warpPositions DEFAULT_WARP_CONFIG (fun _ => 0) (fun _ => 0) 3).length =
      DEFAULT_WARP_CONFIG.lineCount * DEFAULT_WARP_CONFIG.pointsPerLine * 3 :=
  (createWarpEffect_layout DEFAULT_WARP_CONFIG (fun _ => 0) (fun _ => 0) 3
    (fun _ => 0) (fun _ => 0) (by decide) (by norm_num [DEFAULT_WARP_CONFIG])
    (by norm_num) (fun n => ⟨le_refl 0, by norm_num⟩)
    (fun n => ⟨le_refl 0, by norm_num⟩)).1


end Vibeverse
